import Mathlib

/-!
# Size-constrained JPEG re-encoding — a shallow embedding of `resizeAndCompress`

This file embeds the core logic of the Imager repository: the
`resizeAndCompress` quality-search found in `src/src/App.js` (and, as
parameter instances, the variants in the two unnamed source files).

Modelling choices:

* The JPEG encoder (`canvas.toBlob(res, "image/jpeg", quality)`) is an
  abstract deterministic function `enc` from quality to blob byte size;
  the source image and the (fixed) final canvas are folded into it, since
  the loop re-encodes the same canvas and only varies quality.
* Quality is represented in exact hundredths: the JS value `q` is the
  integer `100 * q`.  Every quality constant in the source (`0.9`,
  `±0.05`, the clamps `0.5` / `0.1` / `1`, and `0.92` / `0.02` / `0.99`
  in the third variant) is an integer multiple of `0.01`, so this
  reparametrization is exact; all properties proved here are ordering and
  clamping facts that the idealized exact arithmetic shares with the
  source's floating point for these ranges.
* JS truthiness of `dimensions.minSize` (absent or `0` is falsy) is
  modelled explicitly by `minTruthy`.
* The main loop of `App.js` is the fuel recursion `searchLoop`, with the
  quality floor and the try budget as parameters: `App.js` uses floor
  `0.5` and budget `10`; `part_000` is the same loop at floor `0.1`,
  budget `20` and a hard-coded minimum of `10 * 1024` bytes.  The
  two-phase search of `part_001` is embedded separately
  (`shrinkLoop` / `growLoop`).
-/

namespace Imager

/-- JS `Math.round`: round half toward positive infinity. -/
def jsRound (q : ℚ) : ℤ := ⌊q + 1/2⌋

/-- `DPI_PHOTO` constant of App.js. -/
def DPI_PHOTO : ℚ := 100

/-- `DPI_SIGNATURE` constant of App.js. -/
def DPI_SIGNATURE : ℚ := 95

/-- `CM_TO_INCH = 0.393701` of App.js, exact. -/
def CM_TO_INCH : ℚ := 393701 / 1000000

/-- `getPixelsPerCm(dpi) = dpi * CM_TO_INCH`. -/
def getPixelsPerCm (dpi : ℚ) : ℚ := dpi * CM_TO_INCH

/-- `cmToPx(cm, isPhoto)` of App.js: `Math.round(cm * getPixelsPerCm(dpi))`
with the DPI selected by the photo/signature flag. -/
def cmToPx (cm : ℚ) (isPhoto : Bool) : ℤ :=
  jsRound (cm * getPixelsPerCm (if isPhoto then DPI_PHOTO else DPI_SIGNATURE))

/-- The target spec objects (`IMAGE_DIMENSIONS` / `SIGNATURE_DIMENSIONS`).
Sizes are integers (bytes); `minSize` is optional as in the source, where
the signature preset simply lacks the field.  `isPhoto` records the
`dimensions === IMAGE_DIMENSIONS` identity test App.js performs when
converting cm to px. -/
structure Dimensions where
  width : ℚ
  height : ℚ
  minSize : Option ℤ
  maxSize : ℤ
  isPhoto : Bool
deriving DecidableEq

/-- `IMAGE_DIMENSIONS` of App.js: 3.5×4.5 cm, 20–50 KB, photo DPI. -/
def IMAGE_DIMENSIONS : Dimensions :=
  { width := 7/2, height := 9/2, minSize := some (20 * 1024),
    maxSize := 50 * 1024, isPhoto := true }

/-- `SIGNATURE_DIMENSIONS` of App.js: 3.5×1.5 cm, max 20 KB, no `minSize`. -/
def SIGNATURE_DIMENSIONS : Dimensions :=
  { width := 7/2, height := 3/2, minSize := none,
    maxSize := 20 * 1024, isPhoto := false }

/-- JS truthiness of `dimensions.minSize`: `undefined` (absent) and `0`
are falsy. -/
def minTruthy (d : Dimensions) : Bool :=
  match d.minSize with
  | none => false
  | some m => m ≠ 0

/-- JS `dimensions.minSize || 0`. -/
def minOrZero (d : Dimensions) : ℤ :=
  if minTruthy d then d.minSize.getD 0 else 0

/-- The size test of the loop guard and of the post-loop check:
`blob.size > dimensions.maxSize || (dimensions.minSize && blob.size < dimensions.minSize)`. -/
def outOfBounds (d : Dimensions) (size : ℕ) : Bool :=
  ((size : ℤ) > d.maxSize) || (minTruthy d && ((size : ℤ) < d.minSize.getD 0))

/-- One quality adjustment of the App.js loop body (quality in hundredths):
`quality += blob.size < (dimensions.minSize || 0) ? 0.05 : -0.05;`
`quality = Math.min(1, Math.max(qFloor, quality));`
(App.js hard-codes the floor `0.5`; `part_000` uses `0.1`). -/
def stepQuality (d : Dimensions) (qFloor : ℤ) (q : ℤ) (size : ℕ) : ℤ :=
  min 100 (max qFloor (q + (if (size : ℤ) < minOrZero d then 5 else -5)))

/-- Outcome of the quality-search loop: final quality, final blob size,
number of loop iterations executed (`tries`), and the quality used at
each re-encode, in order.  Quality in hundredths. -/
structure LoopResult where
  quality : ℤ
  size : ℕ
  tries : ℕ
  qualities : List ℤ
deriving DecidableEq

/-- The `while` loop of `resizeAndCompress`
(`while ((oob) && tries < budget) { adjust; clamp; re-encode; tries++ }`),
as fuel recursion: the fuel is `budget - tries`. -/
def searchLoop (enc : ℤ → ℕ) (d : Dimensions) (qFloor : ℤ) :
    ℕ → ℤ → ℕ → LoopResult
  | 0, q, s => ⟨q, s, 0, []⟩
  | fuel + 1, q, s =>
    if outOfBounds d s then
      let q2 := stepQuality d qFloor q s
      let s2 := enc q2
      let r := searchLoop enc d qFloor fuel q2 s2
      ⟨r.quality, r.size, r.tries + 1, q2 :: r.qualities⟩
    else ⟨q, s, 0, []⟩

/-- The outcome `resizeAndCompress` hands to its caller: either the
resized blob (success path, `setResized({url, size})`) or the size error
(`setError(...)` with the achieved size and the spec it missed).  The
success constructor records the final canvas dimensions the encoded blob
has. -/
inductive EncodeResult where
  | success (widthPx heightPx : ℤ) (sizeBytes : ℕ) (quality : ℤ)
  | sizeConstraintViolation (achievedBytes : ℕ) (constraint : Dimensions)
deriving DecidableEq

/-- Full trace of one `resizeAndCompress` call, for stating invariants:
the fixed output-canvas dimensions, the initial quality, the loop trace
and the final verdict. -/
structure RunTrace where
  widthPx : ℤ
  heightPx : ℤ
  initialQuality : ℤ
  tries : ℕ
  qualities : List ℤ
  finalQuality : ℤ
  finalSize : ℕ
  result : EncodeResult
deriving DecidableEq

/-- `resizeAndCompress` of App.js, instrumented: the final canvas is
allocated at `cmToPx` dimensions before the loop and never touched again;
`quality = 0.9` (`90` in hundredths); initial encode; the `while` loop;
then the post-loop check deciding error vs success. -/
def run (enc : ℤ → ℕ) (d : Dimensions) (qFloor : ℤ) (budget : ℕ) : RunTrace :=
  let w := cmToPx d.width d.isPhoto
  let h := cmToPx d.height d.isPhoto
  let q0 : ℤ := 90
  let s0 := enc q0
  let r := searchLoop enc d qFloor budget q0 s0
  { widthPx := w, heightPx := h, initialQuality := q0, tries := r.tries,
    qualities := r.qualities, finalQuality := r.quality, finalSize := r.size,
    result :=
      if outOfBounds d r.size then .sizeConstraintViolation r.size d
      else .success w h r.size r.quality }

/-- `resizeAndCompress` proper: just the verdict of `run`. -/
def resizeAndCompress (enc : ℤ → ℕ) (d : Dimensions) (qFloor : ℤ)
    (budget : ℕ) : EncodeResult :=
  (run enc d qFloor budget).result

/-- Total number of `toBlob` encodes one call performs: the initial
encode plus one per loop iteration. -/
def encodeAttempts (enc : ℤ → ℕ) (d : Dimensions) (qFloor : ℤ)
    (budget : ℕ) : ℕ :=
  1 + (run enc d qFloor budget).tries

/-- App.js variant: quality floor `0.5` (`50`), try budget `10`. -/
def appRun (enc : ℤ → ℕ) (d : Dimensions) : RunTrace := run enc d 50 10

/-- App.js variant verdict. -/
def appResize (enc : ℤ → ℕ) (d : Dimensions) : EncodeResult :=
  resizeAndCompress enc d 50 10

/-- `part_000` variant: its loop is `searchLoop` at floor `0.1` (`10`),
budget `20`.  part_000's own spec objects carry no `minSize` field at
all; the `blob.size < 10*1024` lower bound is hard-coded in its loop
guard, step direction and post-check, which is expressed here as
`minSize := some (10*1024)` on the spec record.  (part_000 also converts
cm to px with a fixed `118.11` px/cm constant; the pixel fields play no
role in the loop facts stated about this variant.) -/
def part000Run (enc : ℤ → ℕ) (maxSize : ℤ) : RunTrace :=
  run enc { width := 7/2, height := 9/2, minSize := some (10 * 1024),
            maxSize := maxSize, isPhoto := true } 10 20

/-! ## The `part_001` two-phase search -/

/-- Loop outcome for the `part_001` variant (quality in hundredths). -/
structure P1Result where
  quality : ℤ
  size : ℕ
  tries : ℕ
deriving DecidableEq

/-- First `part_001` loop:
`while (blob.size > maxSize && quality > 0.1 && tries < maxTries) { quality -= step; re-encode; tries++ }`
with `step = 0.02`. -/
def shrinkLoop (enc : ℤ → ℕ) (maxS : ℤ) : ℕ → ℤ → ℕ → P1Result
  | 0, q, s => ⟨q, s, 0⟩
  | fuel + 1, q, s =>
    if (s : ℤ) > maxS ∧ 10 < q then
      let q2 := q - 2
      let s2 := enc q2
      let r := shrinkLoop enc maxS fuel q2 s2
      ⟨r.quality, r.size, r.tries + 1⟩
    else ⟨q, s, 0⟩

/-- Second `part_001` loop:
`while (blob.size < minSize && quality < 0.99 && tries < maxTries)`,
body `quality += step; if (quality > 1) quality = 1; re-encode; tries++;`
then `if (blob.size >= minSize || quality === 1) break;`. -/
def growLoop (enc : ℤ → ℕ) (minS : ℤ) : ℕ → ℤ → ℕ → P1Result
  | 0, q, s => ⟨q, s, 0⟩
  | fuel + 1, q, s =>
    if (s : ℤ) < minS ∧ q < 99 then
      let t := q + 2
      let q2 := if 100 < t then 100 else t
      let s2 := enc q2
      if (s2 : ℤ) ≥ minS ∨ q2 = 100 then ⟨q2, s2, 1⟩
      else
        let r := growLoop enc minS fuel q2 s2
        ⟨r.quality, r.size, r.tries + 1⟩
    else ⟨q, s, 0⟩

/-- The `part_001` quality search: initial encode at `0.92`, the shrink
loop, then the grow loop continuing the same `tries` counter against
`maxTries = 20` and `minSize = 20*1024`. -/
def part001Search (enc : ℤ → ℕ) (maxS : ℤ) : P1Result :=
  let q0 : ℤ := 92
  let s0 := enc q0
  let r1 := shrinkLoop enc maxS 20 q0 s0
  let r2 := growLoop enc (20 * 1024) (20 - r1.tries) r1.quality r1.size
  ⟨r2.quality, r2.size, r1.tries + r2.tries⟩

/-- Discriminator: did the call land on the success path
(`setResized({url, size})`)? -/
def EncodeResult.isSuccess : EncodeResult → Bool
  | .success _ _ _ _ => true
  | .sizeConstraintViolation _ _ => false

/-- The achieved size a `SizeConstraintViolation` reports (`none` on the
success path). -/
def EncodeResult.achieved : EncodeResult → Option ℕ
  | .success _ _ _ _ => none
  | .sizeConstraintViolation a _ => some a

/-! ## Basic unfolding lemmas -/

theorem run_initialQuality (enc : ℤ → ℕ) (d : Dimensions) (qFloor : ℤ)
    (budget : ℕ) : (run enc d qFloor budget).initialQuality = 90 := rfl

theorem run_tries_eq (enc : ℤ → ℕ) (d : Dimensions) (qFloor : ℤ)
    (budget : ℕ) :
    (run enc d qFloor budget).tries
      = (searchLoop enc d qFloor budget 90 (enc 90)).tries := rfl

theorem run_qualities_eq (enc : ℤ → ℕ) (d : Dimensions) (qFloor : ℤ)
    (budget : ℕ) :
    (run enc d qFloor budget).qualities
      = (searchLoop enc d qFloor budget 90 (enc 90)).qualities := rfl

theorem run_finalSize_eq (enc : ℤ → ℕ) (d : Dimensions) (qFloor : ℤ)
    (budget : ℕ) :
    (run enc d qFloor budget).finalSize
      = (searchLoop enc d qFloor budget 90 (enc 90)).size := rfl

theorem run_finalQuality_eq (enc : ℤ → ℕ) (d : Dimensions) (qFloor : ℤ)
    (budget : ℕ) :
    (run enc d qFloor budget).finalQuality
      = (searchLoop enc d qFloor budget 90 (enc 90)).quality := rfl

theorem resizeAndCompress_eq_ite (enc : ℤ → ℕ) (d : Dimensions) (qFloor : ℤ)
    (budget : ℕ) :
    resizeAndCompress enc d qFloor budget
      = if outOfBounds d (run enc d qFloor budget).finalSize
        then .sizeConstraintViolation (run enc d qFloor budget).finalSize d
        else .success (cmToPx d.width d.isPhoto) (cmToPx d.height d.isPhoto)
              (run enc d qFloor budget).finalSize
              (run enc d qFloor budget).finalQuality := rfl

/-- Unpacking `outOfBounds … = false`: the size is at most `maxSize` and,
when the minimum is active, at least `minSize`. -/
theorem outOfBounds_false_iff (d : Dimensions) (s : ℕ) :
    outOfBounds d s = false ↔
      ((s : ℤ) ≤ d.maxSize ∧ (minTruthy d = true → d.minSize.getD 0 ≤ (s : ℤ))) := by
  simp only [outOfBounds, Bool.or_eq_false_iff, Bool.and_eq_false_iff,
    decide_eq_false_iff_not, not_lt, gt_iff_lt]
  constructor
  · rintro ⟨h1, h2⟩
    refine ⟨h1, fun hm => ?_⟩
    rcases h2 with h2 | h2
    · simp [hm] at h2
    · exact h2
  · rintro ⟨h1, h2⟩
    refine ⟨h1, ?_⟩
    by_cases hm : minTruthy d = true
    · exact Or.inr (h2 hm)
    · exact Or.inl (by simpa using hm)

/-! ## Loop lemmas -/

theorem searchLoop_tries_le (enc : ℤ → ℕ) (d : Dimensions) (qFloor : ℤ) :
    ∀ (fuel : ℕ) (q : ℤ) (s : ℕ),
      (searchLoop enc d qFloor fuel q s).tries ≤ fuel := by
  intro fuel
  induction fuel with
  | zero => intro q s; simp [searchLoop]
  | succ n ih =>
    intro q s
    rw [searchLoop]
    cases h : outOfBounds d s with
    | true => simpa using Nat.succ_le_succ (ih _ _)
    | false => simp

/-- If the loop stopped before exhausting its fuel, it stopped because the
size was inside the window. -/
theorem searchLoop_exit_in_bounds (enc : ℤ → ℕ) (d : Dimensions) (qFloor : ℤ) :
    ∀ (fuel : ℕ) (q : ℤ) (s : ℕ),
      (searchLoop enc d qFloor fuel q s).tries < fuel →
      outOfBounds d (searchLoop enc d qFloor fuel q s).size = false := by
  intro fuel
  induction fuel with
  | zero => intro q s h; omega
  | succ n ih =>
    intro q s h
    rw [searchLoop] at h ⊢
    cases hoob : outOfBounds d s with
    | true =>
      simp only [hoob, if_true] at h ⊢
      exact ih _ _ (by omega)
    | false => simpa using hoob

/-- If every size is out of bounds (e.g. `maxSize < 0`), the loop consumes
all its fuel. -/
theorem searchLoop_tries_of_always_oob (enc : ℤ → ℕ) (d : Dimensions)
    (qFloor : ℤ) (hoob : ∀ s, outOfBounds d s = true) :
    ∀ (fuel : ℕ) (q : ℤ) (s : ℕ),
      (searchLoop enc d qFloor fuel q s).tries = fuel := by
  intro fuel
  induction fuel with
  | zero => intro q s; rfl
  | succ n ih =>
    intro q s
    rw [searchLoop]
    simp [hoob s, ih]

theorem stepQuality_le_hundred (d : Dimensions) (qFloor q : ℤ) (s : ℕ) :
    stepQuality d qFloor q s ≤ 100 := min_le_left _ _

theorem le_stepQuality (d : Dimensions) (qFloor q : ℤ) (s : ℕ)
    (hf : qFloor ≤ 100) : qFloor ≤ stepQuality d qFloor q s :=
  le_min hf (le_max_left _ _)

/-- Every quality the loop re-encodes at lies in the clamp interval. -/
theorem searchLoop_qualities_clamped (enc : ℤ → ℕ) (d : Dimensions)
    (qFloor : ℤ) (hf : qFloor ≤ 100) :
    ∀ (fuel : ℕ) (q : ℤ) (s : ℕ),
      ∀ x ∈ (searchLoop enc d qFloor fuel q s).qualities,
        qFloor ≤ x ∧ x ≤ 100 := by
  intro fuel
  induction fuel with
  | zero => intro q s x hx; simp [searchLoop] at hx
  | succ n ih =>
    intro q s x hx
    rw [searchLoop] at hx
    cases hoob : outOfBounds d s with
    | true =>
      simp only [hoob, if_true, List.mem_cons] at hx
      rcases hx with rfl | hx
      · exact ⟨le_stepQuality d qFloor q s hf, stepQuality_le_hundred d qFloor q s⟩
      · exact ih _ _ x hx
    | false => simp [hoob] at hx

/-- With no active minimum the direction test `blob.size < (minSize || 0)`
is false, so each step subtracts `0.05` and clamps. -/
theorem stepQuality_no_min (d : Dimensions) (hmin : d.minSize = none)
    (qFloor q : ℤ) (s : ℕ) :
    stepQuality d qFloor q s = min 100 (max qFloor (q - 5)) := by
  have : ¬ ((s : ℤ) < minOrZero d) := by
    simp [minOrZero, minTruthy, hmin]
  simp only [stepQuality, if_neg this]
  ring_nf

theorem stepQuality_no_min_le (d : Dimensions) (hmin : d.minSize = none)
    (qFloor q : ℤ) (s : ℕ) (hq : qFloor ≤ q) :
    stepQuality d qFloor q s ≤ q := by
  rw [stepQuality_no_min d hmin]
  calc min 100 (max qFloor (q - 5)) ≤ max qFloor (q - 5) := min_le_right _ _
    _ ≤ q := max_le hq (by omega)

/-- With no active minimum, the trace of qualities starting from the
initial quality is non-increasing. -/
theorem searchLoop_chain_no_min (enc : ℤ → ℕ) (d : Dimensions) (qFloor : ℤ)
    (hmin : d.minSize = none) (hf : qFloor ≤ 100) :
    ∀ (fuel : ℕ) (q : ℤ) (s : ℕ), qFloor ≤ q →
      List.Chain' (fun a b => b ≤ a)
        (q :: (searchLoop enc d qFloor fuel q s).qualities) := by
  intro fuel
  induction fuel with
  | zero => intro q s _; simp [searchLoop]
  | succ n ih =>
    intro q s hq
    rw [searchLoop]
    cases hoob : outOfBounds d s with
    | true =>
      simp only [hoob, if_true]
      exact List.chain'_cons.mpr
        ⟨stepQuality_no_min_le d hmin qFloor q s hq,
         ih _ _ (le_stepQuality d qFloor q s hf)⟩
    | false => simp

/-- With no active minimum, the final quality never exceeds the initial
one. -/
theorem searchLoop_quality_le_no_min (enc : ℤ → ℕ) (d : Dimensions)
    (qFloor : ℤ) (hmin : d.minSize = none) (hf : qFloor ≤ 100) :
    ∀ (fuel : ℕ) (q : ℤ) (s : ℕ), qFloor ≤ q →
      (searchLoop enc d qFloor fuel q s).quality ≤ q := by
  intro fuel
  induction fuel with
  | zero => intro q s _; simp [searchLoop]
  | succ n ih =>
    intro q s hq
    rw [searchLoop]
    cases hoob : outOfBounds d s with
    | true =>
      simp only [hoob, if_true]
      exact le_trans (ih _ _ (le_stepQuality d qFloor q s hf))
        (stepQuality_no_min_le d hmin qFloor q s hq)
    | false => simp

/-- A negative `maxSize` puts every size out of bounds. -/
theorem outOfBounds_of_neg_max (d : Dimensions) (h : d.maxSize < 0) (s : ℕ) :
    outOfBounds d s = true := by
  simp only [outOfBounds, Bool.or_eq_true, decide_eq_true_eq, gt_iff_lt]
  exact Or.inl (lt_of_lt_of_le h (Int.natCast_nonneg s))

/-- With no active minimum, `outOfBounds` is just the `maxSize` test. -/
theorem outOfBounds_no_min (d : Dimensions) (hmin : d.minSize = none) (s : ℕ) :
    outOfBounds d s = decide ((s : ℤ) > d.maxSize) := by
  simp [outOfBounds, minTruthy, hmin]

theorem shrinkLoop_tries_le (enc : ℤ → ℕ) (maxS : ℤ) :
    ∀ (fuel : ℕ) (q : ℤ) (s : ℕ),
      (shrinkLoop enc maxS fuel q s).tries ≤ fuel := by
  intro fuel
  induction fuel with
  | zero => intro q s; simp [shrinkLoop]
  | succ n ih =>
    intro q s
    rw [shrinkLoop]
    by_cases h : (s : ℤ) > maxS ∧ 10 < q
    · simpa [h] using Nat.succ_le_succ (ih _ _)
    · simp [h]

theorem growLoop_tries_le (enc : ℤ → ℕ) (minS : ℤ) :
    ∀ (fuel : ℕ) (q : ℤ) (s : ℕ),
      (growLoop enc minS fuel q s).tries ≤ fuel := by
  intro fuel
  induction fuel with
  | zero => intro q s; simp [growLoop]
  | succ n ih =>
    intro q s
    rw [growLoop]
    split
    · dsimp only
      split
      all_goals split
      all_goals first
        | exact Nat.succ_le_succ (ih _ _)
        | exact Nat.succ_le_succ (Nat.zero_le n)
    · simp

/-- A concrete successful call used by the concrete instantiations below:
an encoder always producing 30 KB meets the photo preset immediately. -/
theorem concrete_success_run :
    resizeAndCompress (fun _ => 30 * 1024) IMAGE_DIMENSIONS 50 10
      = .success 138 177 (30 * 1024) 90 := by
  simp only [resizeAndCompress, run, searchLoop, outOfBounds,
    IMAGE_DIMENSIONS, cmToPx, jsRound, getPixelsPerCm, DPI_PHOTO,
    DPI_SIGNATURE, CM_TO_INCH, minTruthy]
  norm_num

/-! ## The claims -/

/-- C1: if `resizeAndCompress` returns a success result, the returned
blob's byte size satisfies `minBytes ≤ sizeBytes ≤ maxBytes`, with
`minBytes` treated as `0` when the spec has no minimum-size field. -/
theorem success_size_in_window (enc : ℤ → ℕ) (d : Dimensions) (qFloor : ℤ)
    (budget : ℕ) (w h : ℤ) (s : ℕ) (q : ℤ)
    (hs : resizeAndCompress enc d qFloor budget = .success w h s q) :
    d.minSize.getD 0 ≤ (s : ℤ) ∧ (s : ℤ) ≤ d.maxSize := by
  rw [resizeAndCompress_eq_ite] at hs
  cases hoob : outOfBounds d (run enc d qFloor budget).finalSize with
  | true => simp [hoob] at hs
  | false =>
    simp only [hoob, Bool.false_eq_true, if_false, EncodeResult.success.injEq] at hs
    obtain ⟨-, -, hsize, -⟩ := hs
    subst hsize
    rw [outOfBounds_false_iff] at hoob
    obtain ⟨hmax, hmin⟩ := hoob
    refine ⟨?_, hmax⟩
    cases hm : d.minSize with
    | none => simp
    | some m =>
      by_cases hm0 : m = 0
      · simp [hm, hm0]
      · have ht : minTruthy d = true := by simp [minTruthy, hm, hm0]
        have := hmin ht
        rw [hm] at this
        exact this

/-- Witness for C1: the 30 KB success lands inside the photo preset's
20–50 KB window. -/
theorem success_size_in_window_witness :
    IMAGE_DIMENSIONS.minSize.getD 0 ≤ ((30 * 1024 : ℕ) : ℤ)
    ∧ ((30 * 1024 : ℕ) : ℤ) ≤ IMAGE_DIMENSIONS.maxSize :=
  success_size_in_window (fun _ => 30 * 1024) IMAGE_DIMENSIONS 50 10
    138 177 (30 * 1024) 90 concrete_success_run

/-- C2: when the quality search ends with the size still outside the byte
window, the call returns the typed `sizeConstraintViolation` carrying the
last achieved byte size (and the original spec), and this result is not a
success: the two outcomes are mutually exclusive values of one result
type, not an exception. -/
theorem violation_on_unmet_window (enc : ℤ → ℕ) (d : Dimensions)
    (qFloor : ℤ) (budget : ℕ)
    (hoob : outOfBounds d (run enc d qFloor budget).finalSize = true) :
    resizeAndCompress enc d qFloor budget
      = .sizeConstraintViolation (run enc d qFloor budget).finalSize d
    ∧ (resizeAndCompress enc d qFloor budget).isSuccess = false := by
  have h1 : resizeAndCompress enc d qFloor budget
      = .sizeConstraintViolation (run enc d qFloor budget).finalSize d := by
    rw [resizeAndCompress_eq_ite]
    simp [hoob]
  exact ⟨h1, by rw [h1]; rfl⟩

/-- Witness for C2: a 100000-byte constant encoder can never meet the
signature preset's 20 KB cap, so the call fails with the achieved size. -/
theorem violation_on_unmet_window_witness :
    resizeAndCompress (fun _ => 100000) SIGNATURE_DIMENSIONS 50 10
      = .sizeConstraintViolation
          (run (fun _ => 100000) SIGNATURE_DIMENSIONS 50 10).finalSize
          SIGNATURE_DIMENSIONS
    ∧ (resizeAndCompress (fun _ => 100000) SIGNATURE_DIMENSIONS 50 10).isSuccess
        = false :=
  violation_on_unmet_window (fun _ => 100000) SIGNATURE_DIMENSIONS 50 10
    (by decide)

/-- The scenario-B spec: `maxBytes = -1`. -/
def negMaxSpec : Dimensions :=
  { width := 7/2, height := 3/2, minSize := none, maxSize := -1,
    isPhoto := false }

/-- C3 counterexample: with `maxBytes = -1` the code performs the initial
encode plus all 10 budgeted re-encodes — 11 encode attempts, not zero —
and surfaces a size-constraint failure carrying the achieved size, not an
immediate invalid-spec failure (no such validation exists in the code). -/
theorem no_invalid_spec_validation :
    encodeAttempts (fun _ => 100) negMaxSpec 50 10 = 11
    ∧ (resizeAndCompress (fun _ => 100) negMaxSpec 50 10).isSuccess = false
    ∧ (resizeAndCompress (fun _ => 100) negMaxSpec 50 10).achieved = some 100 :=
  ⟨by decide, by decide, by decide⟩

/-- C3 amended: the code never validates the spec — for every spec with
negative `maxBytes` it performs the initial encode plus the full try
budget of re-encodes and returns the size-constraint failure with the
last achieved size. -/
theorem neg_max_exhausts_budget (enc : ℤ → ℕ) (d : Dimensions)
    (qFloor : ℤ) (budget : ℕ) (hneg : d.maxSize < 0) :
    encodeAttempts enc d qFloor budget = budget + 1
    ∧ resizeAndCompress enc d qFloor budget
        = .sizeConstraintViolation (run enc d qFloor budget).finalSize d := by
  have hoob := outOfBounds_of_neg_max d hneg
  constructor
  · rw [encodeAttempts, run_tries_eq,
      searchLoop_tries_of_always_oob enc d qFloor hoob]
    omega
  · rw [resizeAndCompress_eq_ite]
    simp [hoob]

/-- Witness for C3's amended statement at the scenario-B spec. -/
theorem neg_max_exhausts_budget_witness :
    encodeAttempts (fun _ => 100) negMaxSpec 50 10 = 10 + 1
    ∧ resizeAndCompress (fun _ => 100) negMaxSpec 50 10
        = .sizeConstraintViolation
            (run (fun _ => 100) negMaxSpec 50 10).finalSize negMaxSpec :=
  neg_max_exhausts_budget (fun _ => 100) negMaxSpec 50 10 (by decide)

/-- C4 counterexample: the claim fails on the part_000 variant.  Its
specs have no minimum-size field, yet its loop hard-codes a 10 KB lower
bound: a constant 5 KB encoder against the 20 KB signature cap ends with
a final size under `maxBytes` that is still rejected (no success), and
the search raises quality for the too-small blob — from the initial 0.90
to 0.95 and then the ceiling 1.0 for the rest of the budget. -/
theorem part000_enforces_hard_coded_min :
    ((part000Run (fun _ => 5 * 1024) (20 * 1024)).finalSize : ℤ) ≤ 20 * 1024
    ∧ (part000Run (fun _ => 5 * 1024) (20 * 1024)).result.isSuccess = false
    ∧ (part000Run (fun _ => 5 * 1024) (20 * 1024)).initialQuality = 90
    ∧ (part000Run (fun _ => 5 * 1024) (20 * 1024)).qualities
        = [95, 100, 100, 100, 100, 100, 100, 100, 100, 100,
           100, 100, 100, 100, 100, 100, 100, 100, 100, 100] :=
  ⟨by decide, by decide, by decide, by decide⟩

/-- C4 amended: the no-lower-bound behavior holds for the App.js loop
semantics — whenever the spec's `minSize` is absent, any final size at
most `maxBytes` is accepted as success and the search never increases
quality because of a too-small blob (the quality trace from the initial
0.90 is non-increasing); the part_000 variant, however, hard-codes a
10 KB lower bound in its loop independently of the spec, so its searches
fall outside this hypothesis. -/
theorem no_min_means_no_lower_bound (enc : ℤ → ℕ) (d : Dimensions)
    (qFloor : ℤ) (budget : ℕ) (hmin : d.minSize = none) (hf : qFloor ≤ 90) :
    (((run enc d qFloor budget).finalSize : ℤ) ≤ d.maxSize →
      resizeAndCompress enc d qFloor budget
        = .success (cmToPx d.width d.isPhoto) (cmToPx d.height d.isPhoto)
            (run enc d qFloor budget).finalSize
            (run enc d qFloor budget).finalQuality)
    ∧ List.Chain' (fun a b => b ≤ a)
        ((run enc d qFloor budget).initialQuality
          :: (run enc d qFloor budget).qualities) := by
  constructor
  · intro hle
    rw [resizeAndCompress_eq_ite]
    have hfalse : outOfBounds d (run enc d qFloor budget).finalSize = false := by
      rw [outOfBounds_no_min d hmin]
      simpa using hle
    simp [hfalse]
  · rw [run_initialQuality, run_qualities_eq]
    exact searchLoop_chain_no_min enc d qFloor hmin (by omega) budget 90 (enc 90) hf

/-- Witness for C4: a 1000-byte blob is under the signature cap and is
accepted at once, with no lower bound applied. -/
theorem no_min_means_no_lower_bound_witness :
    resizeAndCompress (fun _ => 1000) SIGNATURE_DIMENSIONS 50 10
      = .success
          (cmToPx SIGNATURE_DIMENSIONS.width SIGNATURE_DIMENSIONS.isPhoto)
          (cmToPx SIGNATURE_DIMENSIONS.height SIGNATURE_DIMENSIONS.isPhoto)
          (run (fun _ => 1000) SIGNATURE_DIMENSIONS 50 10).finalSize
          (run (fun _ => 1000) SIGNATURE_DIMENSIONS 50 10).finalQuality :=
  (no_min_means_no_lower_bound (fun _ => 1000) SIGNATURE_DIMENSIONS 50 10
    rfl (by omega)).1 (by decide)

/-- C5: a successful encode's pixel dimensions are exactly the spec's
target dimensions (`cmToPx` of the preset's cm sizes); the quality-search
iterations never alter them — for every encoder, i.e. whatever the source
image. -/
theorem success_dimensions_exact (enc : ℤ → ℕ) (d : Dimensions)
    (qFloor : ℤ) (budget : ℕ) (w h : ℤ) (s : ℕ) (q : ℤ)
    (hs : resizeAndCompress enc d qFloor budget = .success w h s q) :
    w = cmToPx d.width d.isPhoto ∧ h = cmToPx d.height d.isPhoto := by
  rw [resizeAndCompress_eq_ite] at hs
  cases hoob : outOfBounds d (run enc d qFloor budget).finalSize with
  | true => simp [hoob] at hs
  | false =>
    simp only [hoob, Bool.false_eq_true, if_false, EncodeResult.success.injEq] at hs
    exact ⟨hs.1.symm, hs.2.1.symm⟩

/-- Witness for C5: the concrete success has the photo preset's
138×177 px target dimensions. -/
theorem success_dimensions_exact_witness :
    (138 : ℤ) = cmToPx IMAGE_DIMENSIONS.width IMAGE_DIMENSIONS.isPhoto
    ∧ (177 : ℤ) = cmToPx IMAGE_DIMENSIONS.height IMAGE_DIMENSIONS.isPhoto :=
  success_dimensions_exact (fun _ => 30 * 1024) IMAGE_DIMENSIONS 50 10
    138 177 (30 * 1024) 90 concrete_success_run

/-- C6: the quality-search loop executes at most its try budget of
iterations beyond the initial encode at quality 0.90 — for the main loop
at any budget (App.js uses 10, part_000 uses 20), and the two-phase
part_001 search stays within its shared budget of 20. -/
theorem search_within_try_budget (enc : ℤ → ℕ) (d : Dimensions)
    (qFloor : ℤ) (budget : ℕ) (maxS : ℤ) :
    (run enc d qFloor budget).tries ≤ budget
    ∧ (run enc d qFloor budget).initialQuality = 90
    ∧ (part001Search enc maxS).tries ≤ 20 := by
  refine ⟨?_, rfl, ?_⟩
  · rw [run_tries_eq]
    exact searchLoop_tries_le enc d qFloor budget _ _
  · rw [part001Search]
    dsimp only
    have h1 := shrinkLoop_tries_le enc maxS 20 92 (enc 92)
    have h2 := growLoop_tries_le enc (20 * 1024)
      (20 - (shrinkLoop enc maxS 20 92 (enc 92)).tries)
      (shrinkLoop enc maxS 20 92 (enc 92)).quality
      (shrinkLoop enc maxS 20 92 (enc 92)).size
    omega

/-- C7: after each adjustment step the quality lies within
`[qualityFloor, 1]` (in hundredths: `[qFloor, 100]`): the clamp keeps
every re-encode quality in the interval, for any floor at most the
ceiling (App.js floor 0.5, part_000 floor 0.1). -/
theorem quality_never_leaves_clamp (enc : ℤ → ℕ) (d : Dimensions)
    (qFloor : ℤ) (budget : ℕ) (hf : qFloor ≤ 100) :
    ∀ x ∈ (run enc d qFloor budget).qualities, qFloor ≤ x ∧ x ≤ 100 := by
  rw [run_qualities_eq]
  exact searchLoop_qualities_clamped enc d qFloor hf budget 90 (enc 90)

/-- Witness for C7 at the first adjusted quality (0.85) of a concrete
over-sized run. -/
theorem quality_never_leaves_clamp_witness : (50 : ℤ) ≤ 85 ∧ (85 : ℤ) ≤ 100 :=
  quality_never_leaves_clamp (fun _ => 100000) SIGNATURE_DIMENSIONS 50 10
    (by omega) 85 (by decide)

/-- C8 counterexample: with a constant 100000-byte encoder against the
signature preset, quality is clamped at the floor (0.5) from the 8th
iteration on and consecutive encodes return the identical size, yet the
loop still consumes its entire budget of 10 iterations — the code has no
early exit at a clamp boundary. -/
theorem no_early_exit_at_clamp_boundary :
    (run (fun _ => 100000) SIGNATURE_DIMENSIONS 50 10).qualities
      = [85, 80, 75, 70, 65, 60, 55, 50, 50, 50]
    ∧ (run (fun _ => 100000) SIGNATURE_DIMENSIONS 50 10).finalSize = 100000
    ∧ (run (fun _ => 100000) SIGNATURE_DIMENSIONS 50 10).tries = 10 :=
  ⟨by decide, by decide, by decide⟩

/-- C8 amended: the loop has no early exit at a clamp bound — the only
way it stops before exhausting the try budget is that the achieved size
entered the byte window. -/
theorem early_stop_only_when_in_window (enc : ℤ → ℕ) (d : Dimensions)
    (qFloor : ℤ) (budget : ℕ)
    (h : (run enc d qFloor budget).tries < budget) :
    outOfBounds d (run enc d qFloor budget).finalSize = false := by
  rw [run_finalSize_eq]
  rw [run_tries_eq] at h
  exact searchLoop_exit_in_bounds enc d qFloor budget 90 (enc 90) h

/-- Witness for C8's amended statement: a run stopping with zero tries
stopped inside the window. -/
theorem early_stop_only_when_in_window_witness :
    outOfBounds SIGNATURE_DIMENSIONS
      (run (fun _ => 1000) SIGNATURE_DIMENSIONS 50 10).finalSize = false :=
  early_stop_only_when_in_window (fun _ => 1000) SIGNATURE_DIMENSIONS 50 10
    (by decide)

/-- C9: two calls with the identical image and spec yield the same
verdict and, on success, the same `sizeBytes`: assuming the underlying
JPEG encoder is deterministic (the two encoder functions agree
pointwise), the entire trace — and hence the result — of the two runs is
identical. -/
theorem encode_two_run_deterministic (enc1 enc2 : ℤ → ℕ) (d : Dimensions)
    (qFloor : ℤ) (budget : ℕ) (h : ∀ q, enc1 q = enc2 q) :
    run enc1 d qFloor budget = run enc2 d qFloor budget
    ∧ resizeAndCompress enc1 d qFloor budget
        = resizeAndCompress enc2 d qFloor budget := by
  have he : enc1 = enc2 := funext h
  subst he
  exact ⟨rfl, rfl⟩

/-- Witness for C9 with two syntactically equal encoders. -/
theorem encode_two_run_deterministic_witness :
    run (fun _ => 0) SIGNATURE_DIMENSIONS 50 10
      = run (fun _ => 0) SIGNATURE_DIMENSIONS 50 10
    ∧ resizeAndCompress (fun _ => 0) SIGNATURE_DIMENSIONS 50 10
        = resizeAndCompress (fun _ => 0) SIGNATURE_DIMENSIONS 50 10 :=
  encode_two_run_deterministic (fun _ => 0) (fun _ => 0) SIGNATURE_DIMENSIONS
    50 10 (fun _ => rfl)

/-- C10: with no minimum-size field (e.g. the signature preset) the
quality sequence is monotonically non-increasing across iterations —
each step subtracts `0.05` and clamps at the floor, never increasing —
so the final quality never exceeds the initial 0.90. -/
theorem quality_monotone_without_min (enc : ℤ → ℕ) (d : Dimensions)
    (qFloor : ℤ) (budget : ℕ) (hmin : d.minSize = none) (hf : qFloor ≤ 90) :
    List.Chain' (fun a b => b ≤ a)
      ((run enc d qFloor budget).initialQuality
        :: (run enc d qFloor budget).qualities)
    ∧ (run enc d qFloor budget).finalQuality ≤ 90 := by
  constructor
  · rw [run_initialQuality, run_qualities_eq]
    exact searchLoop_chain_no_min enc d qFloor hmin (by omega) budget 90 (enc 90) hf
  · rw [run_finalQuality_eq]
    exact searchLoop_quality_le_no_min enc d qFloor hmin (by omega) budget 90 (enc 90) hf

/-- Witness for C10: the final quality of a concrete signature run stays
at most 0.90. -/
theorem quality_monotone_without_min_witness :
    (run (fun _ => 100000) SIGNATURE_DIMENSIONS 50 10).finalQuality ≤ 90 :=
  (quality_monotone_without_min (fun _ => 100000) SIGNATURE_DIMENSIONS 50 10
    rfl (by omega)).2

end Imager
